import Mathlib

/-!
Verification of the dataflow routing engine of `projects/dataflow-framework/abstraction-level-8`
(`pipeline.py`, `metrics.py`, `processors/base.py`, `main.py`).

The Python code is shallowly embedded as pure state-passing Lean functions:

* `MetricsStore` mirrors the singleton store of `metrics.py`: Python dicts become
  association lists (insertion order preserved, as in CPython), `deque(maxlen=m)`
  becomes `dequeAppend`, which drops the oldest elements on overflow.
  Wall-clock fields of the source (`timestamp`, `last_seen`, `avg_time`,
  memory statistics, `stack_trace`) do not influence any verified property and are
  omitted; `time.time()` differences feeding `total_time` are modelled by the
  explicit `executionTime`/`processingTime` arguments (passed as `0` by the
  embedded callers, matching the fact that no property depends on elapsed time).
* `run_router` of `pipeline.py` becomes a small-step function `router_step` on a
  `RouterState` plus a fuel-indexed driver `run_fuel` (the `while pending:` loop).
* `BaseProcessor.__call__` of `processors/base.py` is a generator; its effects are
  split at the generator protocol boundaries: effects up to the first `yield`
  (`CallResult.store`), effects on normal exhaustion (`CallResult.onComplete`:
  `complete_trace` plus the `finally` metrics record), and effects when the
  consumer abandons the generator because routing validation raised
  (`CallResult.onAbort`: `GeneratorExit` is not an `Exception`, so only the
  `finally` metrics record runs).
* `build_routing` of `pipeline.py` is embedded over an abstract `registry`
  standing for `importlib`-based `load_function` resolution; the networkx
  reachability / cycle warnings of the source are prints only and have no
  effect on the returned node table, so they are not modelled.
* The file-queue daemon of `main.py` is embedded over a directory model of
  `FsEntry` lists; `shutil.move` within the queue directories is the
  rename-with-overwrite `moveFileTo`.
-/

/-! ## Association-list helpers (Python `dict` with insertion order) -/

def lookupA {α : Type} : List (String × α) → String → Option α
  | [], _ => none
  | (k, v) :: rest, key => if k = key then some v else lookupA rest key

/-- Replace the value bound to `key` in place (no insertion when absent). -/
def updateA {α : Type} : List (String × α) → String → α → List (String × α)
  | [], _, _ => []
  | (k, v) :: rest, key, w => if k = key then (k, w) :: rest else (k, v) :: updateA rest key w

/-- `dict.pop`: remove the binding for `key`, preserving the order of the rest. -/
def removeA {α : Type} : List (String × α) → String → List (String × α)
  | [], _ => []
  | (k, v) :: rest, key => if k = key then rest else (k, v) :: removeA rest key

/-- Replace the value in place when present, append a new binding otherwise
(CPython `defaultdict` access order). -/
def upsertA {α : Type} : List (String × α) → String → α → List (String × α)
  | [], key, w => [(key, w)]
  | (k, v) :: rest, key, w => if k = key then (k, w) :: rest else (k, v) :: upsertA rest key w

/-- `collections.deque(maxlen := m).append`: append on the right, dropping the
oldest elements on the left when the bound is exceeded. -/
def dequeAppend {α : Type} (maxlen : Nat) (xs : List α) (x : α) : List α :=
  let ys := xs ++ [x]
  if maxlen < ys.length then ys.drop (ys.length - maxlen) else ys

/-! ## Metrics store (`metrics.py`) -/

/-- `TraceStep` of `metrics.py` (wall-clock `timestamp` omitted). -/
structure TraceStep where
  processor : String
  inputContent : String
  outputContent : String
  outputTags : List String
  processingTime : Nat

/-- The dict stored in `MetricsStore._active_traces` (wall-clock `start_time` omitted). -/
structure ActiveTrace where
  originalContent : String
  steps : List TraceStep
  path : List String
  allTags : List String

/-- `TraceEntry` of `metrics.py` (wall-clock fields omitted). -/
structure TraceEntry where
  lineId : String
  originalContent : String
  finalContent : String
  steps : List TraceStep
  path : List String
  allTags : List String

/-- `ErrorEntry` of `metrics.py` (`stack_trace` and `timestamp` omitted). -/
structure ErrorEntry where
  processor : String
  message : String
  lineContent : Option String

/-- `ProcessorMetrics` of `metrics.py` (derived `avg_time`, wall-clock
`last_seen` and `memory_usage_mb` omitted). -/
structure ProcMetrics where
  count : Nat
  totalTime : Nat
  errors : Nat

/-- `MetricsStore` of `metrics.py`.  The lock, the psutil process handle and the
level-8 file-tracking fields are not needed by any verified property. -/
structure MetricsStore where
  maxTraces : Nat
  maxErrors : Nat
  metrics : List (String × ProcMetrics)
  traces : List TraceEntry
  errors : List ErrorEntry
  traceEnabled : Bool
  activeTraces : List (String × ActiveTrace)
  lineCounter : Nat

/-- `MetricsStore.__init__` (`trace_enabled` read from the environment is a parameter). -/
def MetricsStore.init (traceEnabled : Bool) (maxTraces maxErrors : Nat) : MetricsStore :=
  { maxTraces := maxTraces
    maxErrors := maxErrors
    metrics := []
    traces := []
    errors := []
    traceEnabled := traceEnabled
    activeTraces := []
    lineCounter := 0 }

/-- `MetricsStore.get_instance` with its default ring sizes (1000 traces, 100 errors). -/
def default_store (traceEnabled : Bool) : MetricsStore :=
  MetricsStore.init traceEnabled 1000 100

/-- `MetricsStore.start_trace`. -/
def MetricsStore.start_trace (s : MetricsStore) (lineContent : String) : String × MetricsStore :=
  if s.traceEnabled = false then ("", s)
  else
    let c := s.lineCounter + 1
    let lineId := "line_" ++ toString c
    (lineId,
      { s with
          lineCounter := c
          activeTraces := s.activeTraces ++
            [(lineId, { originalContent := lineContent, steps := [], path := [], allTags := [] })] })

/-- `MetricsStore.add_trace_step`. -/
def MetricsStore.add_trace_step (s : MetricsStore) (lineId processorTag inputContent outputContent : String)
    (outputTags : List String) (processingTime : Nat) : MetricsStore :=
  if s.traceEnabled = false ∨ lineId = "" then s
  else
    match lookupA s.activeTraces lineId with
    | none => s
    | some ti =>
      let step : TraceStep :=
        { processor := processorTag
          inputContent := inputContent
          outputContent := outputContent
          outputTags := outputTags
          processingTime := processingTime }
      { s with
          activeTraces := updateA s.activeTraces lineId
            { ti with
                steps := ti.steps ++ [step]
                path := ti.path ++ [processorTag]
                allTags := ti.allTags ++ outputTags } }

/-- `MetricsStore.complete_trace`.  The source deduplicates `all_tags` through
`list(set(...))`, whose order CPython leaves unspecified; `List.eraseDups`
(keep first occurrences) is one admissible order. -/
def MetricsStore.complete_trace (s : MetricsStore) (lineId finalContent : String) : MetricsStore :=
  if s.traceEnabled = false ∨ lineId = "" then s
  else
    match lookupA s.activeTraces lineId with
    | none => s
    | some ti =>
      let entry : TraceEntry :=
        { lineId := lineId
          originalContent := ti.originalContent
          finalContent := finalContent
          steps := ti.steps
          path := ti.path
          allTags := ti.allTags.eraseDups }
      { s with
          activeTraces := removeA s.activeTraces lineId
          traces := dequeAppend s.maxTraces s.traces entry }

/-- `MetricsStore.record_processor_metrics`. -/
def MetricsStore.record_processor_metrics (s : MetricsStore) (processorTag : String)
    (executionTime : Nat) (success : Bool) : MetricsStore :=
  let m := (lookupA s.metrics processorTag).getD { count := 0, totalTime := 0, errors := 0 }
  let m1 : ProcMetrics :=
    { count := m.count + 1
      totalTime := m.totalTime + executionTime
      errors := if success then m.errors else m.errors + 1 }
  { s with metrics := upsertA s.metrics processorTag m1 }

/-- `MetricsStore.record_error`: append to the error ring and bump the
processor's error counter (a `defaultdict` access). -/
def MetricsStore.record_error (s : MetricsStore) (processorTag message : String)
    (lineContent : Option String) : MetricsStore :=
  let m := (lookupA s.metrics processorTag).getD { count := 0, totalTime := 0, errors := 0 }
  { s with
      errors := dequeAppend s.maxErrors s.errors
        { processor := processorTag, message := message, lineContent := lineContent }
      metrics := upsertA s.metrics processorTag { m with errors := m.errors + 1 } }

/-- `MetricsStore.get_stats`: the per-processor counter projection served by `/stats`. -/
def MetricsStore.get_stats (s : MetricsStore) : List (String × ProcMetrics) :=
  s.metrics

/-! ## Processors (`processors/base.py`, `pipeline.py`) -/

/-- The first component of a pair yielded by a processor.  `run_router` checks
`isinstance(out_tags, list)` at runtime, so the embedding keeps the non-list
possibility, carrying the Python type name used in the error message. -/
inductive TagsVal where
  | list : List String → TagsVal
  | nonList : String → TagsVal

/-- The private `self.state` dict of a `BaseProcessor` (`LineCounter` stores an
integer counter under the key `"count"`). -/
abbrev PState := List (String × Nat)

/-- A processor as dispatched by `run_router`: either a plain callable (no
observability side effects) or a `BaseProcessor` instance whose `__call__`
wrapper does metrics and tracing around the subclass `process`. -/
inductive NodeProc where
  | raw (f : String → List (TagsVal × String))
  | base (procTag : String) (state : PState)
      (process : PState → String → List (List String × String) × PState)

/-- `ProcessorNode` of `pipeline.py` (the optional networkx graph reference has
no behavioural role). -/
structure Node where
  tag : String
  proc : NodeProc

def lookupNode : List Node → String → Option Node
  | [], _ => none
  | n :: rest, t => if n.tag = t then some n else lookupNode rest t

/-- `nodes[tag] = value` on the dict built by `build_routing`: replace in place
when the tag exists, append otherwise. -/
def insertNode : List Node → Node → List Node
  | [], n => [n]
  | m :: rest, n => if m.tag = n.tag then n :: rest else m :: insertNode rest n

/-- Replace the processor object of the node bound to `t` (a `BaseProcessor`
mutates its own state across calls; the node table keeps pointing at it). -/
def updateNode : List Node → String → NodeProc → List Node
  | [], _, _ => []
  | n :: rest, t, p => if n.tag = t then { n with proc := p } :: rest else n :: updateNode rest t p

/-- `out_tag in nodes or out_tag == "end"`. -/
def knownTag (nodes : List Node) (t : String) : Bool :=
  (lookupNode nodes t).isSome || t == "end"

/-- The observable pieces of one `processor(iter([line]))` generator, split at
the generator protocol boundaries (see the file header). -/
structure CallResult where
  emitted : List (TagsVal × String)
  store : MetricsStore
  onComplete : MetricsStore → MetricsStore
  onAbort : MetricsStore → MetricsStore
  proc : NodeProc

/-- Invoking a processor on the single-element iterator `iter([line])`.
For `NodeProc.base` this is `BaseProcessor.__call__` of `processors/base.py`:
start an own trace when tracing is enabled, run `process`, add one detailed
trace step per collected output, yield the outputs, then (on exhaustion)
complete the own trace and record processor metrics in the `finally` block.
When the consumer abandons the generator, `GeneratorExit` is not caught by the
`except Exception` clause, so only the `finally` metrics record runs. -/
def callProc : NodeProc → String → MetricsStore → CallResult
  | .raw f, line, s =>
    { emitted := f line, store := s, onComplete := fun sc => sc, onAbort := fun sc => sc
      proc := .raw f }
  | .base procTag st process, line, s =>
    let idAndStore := if s.traceEnabled = true then s.start_trace line else ("", s)
    let ownId := idAndStore.1
    let resultsAndState := process st line
    let results := resultsAndState.1
    let s2 := results.foldl
      (fun acc r =>
        if acc.traceEnabled = true ∧ ownId ≠ "" then
          acc.add_trace_step ownId procTag line r.2 r.1 0
        else acc)
      idAndStore.2
    { emitted := results.map (fun r => (TagsVal.list r.1, r.2))
      store := s2
      onComplete := fun sc =>
        let sc1 :=
          if sc.traceEnabled = true ∧ ownId ≠ "" ∧ results ≠ [] then
            sc.complete_trace ownId ((results.map Prod.snd).getLastD "")
          else sc
        sc1.record_processor_metrics procTag 0 true
      onAbort := fun sc => sc.record_processor_metrics procTag 0 true
      proc := .base procTag resultsAndState.2 process }

/-! ## Routing engine (`run_router` of `pipeline.py`) -/

/-- The work item of the engine: `(tag, line, hops, line_id)`. -/
structure Envelope where
  tag : String
  line : String
  hops : Nat
  lineId : String

/-- Error text of the `isinstance(out_tags, list)` check (source quotes dropped). -/
def nonlist_message (tag tyName : String) : String :=
  "Processor " ++ tag ++ " must yield a list of tags, got " ++ tyName

/-- Error text of the empty-tag-list check. -/
def empty_tags_message (tag : String) : String :=
  "Processor " ++ tag ++ " yielded an empty list of tags. Each line must have at least one tag."

/-- Error text of the unknown-emitted-tag check. -/
def unknown_emit_message (tag bad : String) : String :=
  "Processor " ++ tag ++ " emitted unknown tag " ++ bad ++ ". Add it to config."

/-- Error text of the hop-limit check. -/
def hop_message (maxHops : Nat) (tag : String) : String :=
  "Line exceeded max hops (" ++ toString maxHops ++ ") for tag " ++ tag ++
    ". Possible infinite loop."

/-- Error text of the unknown-dispatch-tag check. -/
def unknown_route_message (tag : String) : String :=
  "Line routed to unknown tag " ++ tag ++ ". Please check processor output or config."

/-- Validation and enqueueing of the pairs emitted by one processor call
(the `for out_tags, out_line in ...` body of `run_router`).  On the first
violation the engine records an error against the current node's tag and
raises; the envelopes already appended are discarded with the run. -/
def enqueueOutputs (nodes : List Node) (tag line : String) (hops : Nat) (lineId : String)
    (s : MetricsStore) :
    List (TagsVal × String) → Except (String × MetricsStore) (List Envelope)
  | [] => .ok []
  | (TagsVal.nonList tyName, _) :: _ =>
    .error (nonlist_message tag tyName,
      s.record_error tag (nonlist_message tag tyName) (some line))
  | (TagsVal.list ts, outLine) :: more =>
    if ts = [] then
      .error (empty_tags_message tag, s.record_error tag (empty_tags_message tag) (some line))
    else
      match ts.find? (fun t => !(knownTag nodes t)) with
      | some bad =>
        .error (unknown_emit_message tag bad,
          s.record_error tag (unknown_emit_message tag bad) (some line))
      | none =>
        match enqueueOutputs nodes tag line hops lineId s more with
        | .error e => .error e
        | .ok envs =>
          .ok (ts.map (fun t => { tag := t, line := outLine, hops := hops + 1, lineId := lineId }) ++ envs)

/-- The state of one `run_router` invocation: the node table (processor objects
mutate), the pending deque, the lines yielded so far and the metrics store. -/
structure RouterState where
  nodes : List Node
  pending : List Envelope
  output : List String
  store : MetricsStore

/-- Outcome of one iteration of the `while pending:` loop. -/
inductive StepResult where
  | done (st : RouterState)
  | next (st : RouterState)
  | fatal (msg : String) (st : RouterState)

/-- The engine-level trace start of `run_router` (step 4 of the loop body):
assign a fresh trace id when the envelope carries none and tracing is enabled. -/
def engine_trace_id (st : RouterState) (e : Envelope) : String × MetricsStore :=
  if e.lineId = "" ∧ st.store.traceEnabled = true then st.store.start_trace e.line
  else (e.lineId, st.store)

/-- One iteration of the `while pending:` loop of `run_router`, in source
order: sink check, hop-limit check, node lookup, engine-level trace start,
processor invocation, output validation and enqueueing. -/
def router_step (maxHops : Nat) (st : RouterState) : StepResult :=
  match st.pending with
  | [] => .done st
  | e :: rest =>
    if e.tag = "end" then
      let s1 :=
        if e.lineId ≠ "" ∧ st.store.traceEnabled = true then
          (st.store.add_trace_step e.lineId "end" e.line e.line ["end"] 0).complete_trace
            e.lineId e.line
        else st.store
      .next { st with pending := rest, output := st.output ++ [e.line], store := s1 }
    else if maxHops < e.hops then
      .fatal (hop_message maxHops e.tag)
        { st with
            pending := rest
            store := st.store.record_error "router" (hop_message maxHops e.tag) (some e.line) }
    else
      match lookupNode st.nodes e.tag with
      | none =>
        .fatal (unknown_route_message e.tag)
          { st with
              pending := rest
              store := st.store.record_error "router" (unknown_route_message e.tag) (some e.line) }
      | some node =>
        let idAndStore := engine_trace_id st e
        let cr := callProc node.proc e.line idAndStore.2
        let nodes1 := updateNode st.nodes e.tag cr.proc
        match enqueueOutputs st.nodes e.tag e.line e.hops idAndStore.1 cr.store cr.emitted with
        | .error err =>
          .fatal err.1 { st with nodes := nodes1, pending := rest, store := cr.onAbort err.2 }
        | .ok envs =>
          .next { st with nodes := nodes1, pending := rest ++ envs, store := cr.onComplete cr.store }

/-- Result of a finished `run_router` call: either the loop drained the deque
(`finished`) or an exception propagated to the caller (`raised`). -/
inductive RunOutcome where
  | finished (st : RouterState)
  | raised (msg : String) (st : RouterState)

/-- Fuel-indexed driver of the `while pending:` loop; `none` means the fuel ran
out before the loop did. -/
def run_fuel (maxHops : Nat) : Nat → RouterState → Option RunOutcome
  | 0, _ => none
  | fuel + 1, st =>
    match router_step maxHops st with
    | .done st1 => some (.finished st1)
    | .fatal msg st1 => some (.raised msg st1)
    | .next st1 => run_fuel maxHops fuel st1

/-- The initial deque of `run_router`: `(start_tag, line, 0, "")` per input line. -/
def init_state (nodes : List Node) (startTag : String) (lines : List String)
    (s : MetricsStore) : RouterState :=
  { nodes := nodes
    pending := lines.map (fun l => { tag := startTag, line := l, hops := 0, lineId := "" })
    output := []
    store := s }

/-- Output stream of a terminating run (`none` when the fuel ran out or the run raised). -/
def run_output (maxHops fuel : Nat) (st : RouterState) : Option (List String) :=
  match run_fuel maxHops fuel st with
  | some (.finished st1) => some st1.output
  | _ => none

/-- Final metrics store of a terminating run. -/
def run_store (maxHops fuel : Nat) (st : RouterState) : Option MetricsStore :=
  match run_fuel maxHops fuel st with
  | some (.finished st1) => some st1.store
  | _ => none

/-! ## Config loader (`build_routing` of `pipeline.py`) -/

/-- One entry of the `nodes:` sequence of the YAML config. -/
structure NodeCfg where
  tag : String
  type : String
  routes : List String

/-- What `load_function` resolves a `type` identifier to: either a plain
callable or a `BaseProcessor` instance (carrying the processor tag set in its
constructor, e.g. `"LineCounter_" ++ tag`). -/
inductive ProcSpec where
  | raw (f : String → List (TagsVal × String))
  | base (procTag : String) (state : PState)
      (process : PState → String → List (List String × String) × PState)

/-- `ProcessorNode.__init__`: `set_processor_tag(tag)` is called exactly when
the processor has that attribute, i.e. when it is a `BaseProcessor`. -/
def setProcessorTag : ProcSpec → String → NodeProc
  | .raw f, _ => .raw f
  | .base _ st process, t => .base t st process

/-- The first loop of `build_routing`: resolve each `type` through the registry
(standing for `importlib`-based `load_function`), build the node dict, and
record an initialising processor-metrics sample for every config entry. -/
def registerNodes (registry : String → Option ProcSpec) :
    List NodeCfg → List Node → MetricsStore → Except String (List Node) × MetricsStore
  | [], acc, s => (.ok acc, s)
  | nc :: rest, acc, s =>
    match registry nc.type with
    | none => (.error ("Processor " ++ nc.type ++ " could not be loaded"), s)
    | some spec =>
      let node : Node := { tag := nc.tag, proc := setProcessorTag spec nc.tag }
      registerNodes registry rest (insertNode acc node)
        (s.record_processor_metrics nc.tag 0 true)

/-- The route-validation loop of `build_routing`: the first route target that
is neither a node tag nor the literal `end` raises `KeyError`. -/
def checkRoutes (nodes : List Node) : List NodeCfg → Option String
  | [] => none
  | nc :: rest =>
    match nc.routes.find? (fun r => !(knownTag nodes r)) with
    | some bad => some ("Node " ++ nc.tag ++ " declares route to unknown tag " ++ bad)
    | none => checkRoutes nodes rest

/-- `build_routing` of `pipeline.py`: register the nodes, then require a
`start` node, then require an `end` node, then validate route targets.
The networkx unreachability and cycle warnings are prints without effect on
the result and are not modelled. -/
def build_routing (registry : String → Option ProcSpec) (cfg : List NodeCfg)
    (s : MetricsStore) : Except String (List Node) × MetricsStore :=
  match registerNodes registry cfg [] s with
  | (.error e, s1) => (.error e, s1)
  | (.ok nodes, s1) =>
    if (lookupNode nodes "start").isSome = false then
      (.error "Config must include a start node", s1)
    else if (lookupNode nodes "end").isSome = false then
      (.error "Config must include an end node", s1)
    else
      match checkRoutes nodes cfg with
      | some e => (.error e, s1)
      | none => (.ok nodes, s1)

def exceptOk {ε α : Type} : Except ε α → Bool
  | .ok _ => true
  | .error _ => false

/-- `LineCounter.process` of `processors/base.py`: bump the private counter and
emit the counted line under the instance's routing tag. -/
def lineCounterProcess (routeTag : String) (st : PState) (line : String) :
    List (List String × String) × PState :=
  let c := (lookupA st "count").getD 0 + 1
  ([([routeTag], toString c ++ ": " ++ line)], upsertA st "count" c)

/-- A `LineCounter(tag)` instance as resolvable from a config `type`. -/
def lineCounter (routeTag : String) : ProcSpec :=
  .base ("LineCounter_" ++ routeTag) [("count", 0)] (lineCounterProcess routeTag)

/-! ## File-queue daemon (`main.py`) -/

/-- A directory entry as seen through `Path.iterdir` (name, regular-file flag,
`st_mtime`). -/
structure FsEntry where
  name : String
  isFile : Bool
  mtime : Nat

/-- The three lifecycle directories under the watch dir. -/
structure QueueDirs where
  unprocessed : List FsEntry
  underprocess : List FsEntry
  processed : List FsEntry

/-- `shutil.move` of a file into a directory: a rename that overwrites an
existing entry of the same name (POSIX semantics within one filesystem). -/
def moveFileTo (dir : List FsEntry) (e : FsEntry) : List FsEntry :=
  (dir.filter (fun d => d.name ≠ e.name)) ++ [e]

def insertSorted (le : FsEntry → FsEntry → Bool) (e : FsEntry) : List FsEntry → List FsEntry
  | [] => [e]
  | x :: rest => if le e x then e :: x :: rest else x :: insertSorted le e rest

/-- Insertion sort (`sorted` in the source sorts by path name for the recovery
loop and by `st_mtime` for the candidate list). -/
def sortEntries (le : FsEntry → FsEntry → Bool) : List FsEntry → List FsEntry
  | [] => []
  | x :: rest => insertSorted le x (sortEntries le rest)

/-- The body of the recovery loop, iterating over the sorted snapshot of
`underprocess/`. -/
def recover_loop : List FsEntry → QueueDirs → QueueDirs
  | [], d => d
  | it :: rest, d =>
    if it.isFile = true then
      recover_loop rest
        { d with
            underprocess := d.underprocess.filter (fun x => x.name ≠ it.name)
            unprocessed := moveFileTo d.unprocessed it }
    else recover_loop rest d

/-- `recover_underprocess` of `main.py`: move every regular file found in
`underprocess/` back to `unprocessed/` (iterating over a name-sorted snapshot). -/
def recover_underprocess (d : QueueDirs) : QueueDirs :=
  recover_loop (sortEntries (fun a b => decide (a.name ≤ b.name)) d.underprocess) d

/-- `process_file` of `main.py`, abstracted over the engine outcome `pf`
(build routing, run the router over the file, write `<name>.out`): on success
the output file appears in `processed/`; on failure nothing is written.
The metrics-store bookkeeping of `process_file` is orthogonal to the verified
filesystem property and is not modelled here. -/
def process_file (pf : String → Bool) (name : String) (d : QueueDirs) : Bool × QueueDirs :=
  if pf name then
    (true, { d with processed := moveFileTo d.processed { name := name ++ ".out", isFile := true, mtime := 0 } })
  else (false, d)

/-- The per-candidate body of the monitor loop: claim by an atomic move into
`underprocess/`, process, then commit to `processed/` (suffix `.dup` on
collision) or return to `unprocessed/` for retry (suffix `.retry` on collision). -/
def claim_and_process (pf : String → Bool) (d : QueueDirs) (candidate : FsEntry) : QueueDirs :=
  let d1 : QueueDirs :=
    { d with
        unprocessed := d.unprocessed.filter (fun x => x.name ≠ candidate.name)
        underprocess := moveFileTo d.underprocess candidate }
  let r := process_file pf candidate.name d1
  if r.1 = true then
    let destName :=
      if (r.2.processed.any (fun x => x.name = candidate.name)) then candidate.name ++ ".dup"
      else candidate.name
    { r.2 with
        underprocess := r.2.underprocess.filter (fun x => x.name ≠ candidate.name)
        processed := moveFileTo r.2.processed { candidate with name := destName } }
  else
    let destName :=
      if (r.2.unprocessed.any (fun x => x.name = candidate.name)) then candidate.name ++ ".retry"
      else candidate.name
    { r.2 with
        underprocess := r.2.underprocess.filter (fun x => x.name ≠ candidate.name)
        unprocessed := moveFileTo r.2.unprocessed { candidate with name := destName } }

/-- One pass of the polling loop of `monitor_folder`: list the regular files of
`unprocessed/` sorted by mtime (oldest first) and handle each in turn. -/
def monitor_iteration (pf : String → Bool) (d : QueueDirs) : QueueDirs :=
  let candidates := sortEntries (fun a b => decide (a.mtime ≤ b.mtime))
    (d.unprocessed.filter (fun e => e.isFile))
  candidates.foldl (claim_and_process pf) d

/-- `monitor_folder` startup followed by the first poll: recovery runs before
the loop begins. -/
def monitor_startup (pf : String → Bool) (d : QueueDirs) : QueueDirs :=
  monitor_iteration pf (recover_underprocess d)

/-! ## Derived notions and concrete scenarios used by the verification -/

/-- A processor emission that passes all three runtime checks of `run_router`:
a list, non-empty, and every tag known or `end`. -/
def ValidEmitted (nodes : List Node) (emitted : List (TagsVal × String)) : Prop :=
  ∀ p ∈ emitted, ∃ ts, p.1 = TagsVal.list ts ∧ ts ≠ [] ∧ ∀ t ∈ ts, knownTag nodes t = true

/-- The envelopes `run_router` appends for a fully valid emission, in emission
order: one envelope per tag, tags of one pair in tag-list order. -/
def fanoutEnvelopes (hops : Nat) (lineId : String) (emitted : List (TagsVal × String)) :
    List Envelope :=
  emitted.flatMap (fun p =>
    match p.1 with
    | TagsVal.list ts =>
      ts.map (fun t => { tag := t, line := p.2, hops := hops + 1, lineId := lineId })
    | TagsVal.nonList _ => [])

/-- The ring-buffer bounds of the store (§ C9): never more than `max_traces`
completed traces and `max_errors` error entries. -/
def StoreBounded (s : MetricsStore) : Prop :=
  s.traces.length ≤ s.maxTraces ∧ s.errors.length ≤ s.maxErrors

/-- The identity stage of the spec laws: emits `(["end"], line)`. -/
def identProc : NodeProc := .raw (fun l => [(TagsVal.list ["end"], l)])

/-- A node table whose `start` node is the identity stage. -/
def identNodes : List Node := [{ tag := "start", proc := identProc }]

/-- A node table whose `start` stage emits `(["end", "end"], line)`. -/
def fanoutNodes : List Node :=
  [{ tag := "start", proc := .raw (fun l => [(TagsVal.list ["end", "end"], l)]) }]

/-- A node table whose `start` stage yields a pair whose first component is a
Python `bool` rather than a list. -/
def badEmitNodes : List Node :=
  [{ tag := "start", proc := .raw (fun l => [(TagsVal.nonList "bool", l)]) }]

/-- A `BaseProcessor`-backed pass-through stage under tag `start` (its
`processor_tag` equals the node tag, as set by `ProcessorNode.__init__`). -/
def traceNodes : List Node :=
  [{ tag := "start", proc := .base "start" [] (fun st l => ([(["end"], l)], st)) }]

/-- The initial envelope of one input line, as built by `run_router`. -/
def startEnv (l : String) : Envelope := { tag := "start", line := l, hops := 0, lineId := "" }

/-- An envelope addressed to the sink, as produced by the identity stage. -/
def endEnv (l : String) : Envelope := { tag := "end", line := l, hops := 1, lineId := "" }

/-- Completed traces of a terminating run. -/
def run_traces (maxHops fuel : Nat) (st : RouterState) : List TraceEntry :=
  match run_fuel maxHops fuel st with
  | some (.finished st1) => st1.store.traces
  | _ => []

/-- Whether the run raised (an exception propagated to the caller). -/
def run_raised (maxHops fuel : Nat) (st : RouterState) : Bool :=
  match run_fuel maxHops fuel st with
  | some (.raised _ _) => true
  | _ => false

/-- Stage tags of the error-ring entries after a raised run. -/
def run_error_processors (maxHops fuel : Nat) (st : RouterState) : List String :=
  match run_fuel maxHops fuel st with
  | some (.raised _ st1) => st1.store.errors.map (fun er => er.processor)
  | _ => []

/-- Registry for the metrics-isolation scenario (spec § 8 scenario 6): a plain
forwarding callable, two `LineCounter` instances (routing tags `c2` and `end`),
and a pass-through for the `end` node entry that `build_routing` insists on. -/
def lc_registry : String → Option ProcSpec := fun t =>
  if t = "fwd" then some (.raw (fun l => [(TagsVal.list ["c1"], l)]))
  else if t = "lc_c2" then some (lineCounter "c2")
  else if t = "lc_end" then some (lineCounter "end")
  else if t = "noop" then some (.raw (fun l => [(TagsVal.list ["end"], l)]))
  else none

/-- Config of the metrics-isolation scenario: every line flows
`start → c1 → c2 → end` with `LineCounter` stages at `c1` and `c2`. -/
def lc_cfg : List NodeCfg :=
  [{ tag := "start", type := "fwd", routes := [] },
   { tag := "c1", type := "lc_c2", routes := [] },
   { tag := "c2", type := "lc_end", routes := [] },
   { tag := "end", type := "noop", routes := [] }]

def lc_built : Except String (List Node) × MetricsStore :=
  build_routing lc_registry lc_cfg (default_store false)

def lc_nodes : List Node :=
  match lc_built.1 with
  | .ok ns => ns
  | .error _ => []

/-- The metrics-isolation run: three input lines through the built table. -/
def lc_state : RouterState :=
  init_state lc_nodes "start" ["a", "b", "c"] lc_built.2

/-- The `/stats` count reported for `tag` after the metrics-isolation run. -/
def lc_stats_count (tag : String) : Option Nat :=
  match run_store 1000 13 lc_state with
  | some s => (lookupA s.get_stats tag).map (fun m => m.count)
  | none => none

/-- The `/stats` count reported for `tag` at registration time (before any line). -/
def lc_registration_count (tag : String) : Option Nat :=
  (lookupA lc_built.2.get_stats tag).map (fun m => m.count)

/-- The private `state["count"]` of the `LineCounter` at `tag` after the run. -/
def lc_internal_count (tag : String) : Option Nat :=
  match run_fuel 1000 13 lc_state with
  | some (.finished st) =>
    match lookupNode st.nodes tag with
    | some n =>
      match n.proc with
      | .base _ ps _ => lookupA ps "count"
      | .raw _ => none
    | none => none
  | _ => none

/-- Registry resolving the single identifier used by the loader scenarios. -/
def ident_registry : String → Option ProcSpec := fun t =>
  if t = "ident" then some (.raw (fun l => [(TagsVal.list ["end"], l)])) else none

/-- A config with a `start` node but no `end` node. -/
def cfg_no_end : List NodeCfg := [{ tag := "start", type := "ident", routes := [] }]

/-- A config with `start`, `end`, and a duplicated tag. -/
def cfg_dup : List NodeCfg :=
  [{ tag := "start", type := "ident", routes := [] },
   { tag := "end", type := "ident", routes := [] },
   { tag := "end", type := "ident", routes := [] }]

/-- The watch-mode recovery scenario (spec § 8 scenario 5): `x.txt` stranded in
`underprocess/` by a crash. -/
def crash_dirs : QueueDirs :=
  { unprocessed := []
    underprocess := [{ name := "x.txt", isFile := true, mtime := 5 }]
    processed := [] }

/-! ## Helper lemmas -/

theorem enqueueOutputs_ok_mem (nodes : List Node) (tag line : String) (hops : Nat)
    (lineId : String) (s : MetricsStore) (emitted : List (TagsVal × String))
    (envs : List Envelope)
    (h : enqueueOutputs nodes tag line hops lineId s emitted = .ok envs) :
    ∀ env ∈ envs, env.hops = hops + 1 ∧ env.lineId = lineId := by
  induction emitted generalizing envs with
  | nil =>
    simp only [enqueueOutputs, Except.ok.injEq] at h
    subst h
    intro env henv
    simp at henv
  | cons p rest ih =>
    obtain ⟨tv, outLine⟩ := p
    cases tv with
    | nonList ty =>
      simp only [enqueueOutputs] at h
      simp at h
    | list ts =>
      rw [enqueueOutputs] at h
      by_cases hts : ts = []
      · rw [if_pos hts] at h
        simp at h
      · rw [if_neg hts] at h
        cases hfind : ts.find? (fun t => !(knownTag nodes t)) with
        | some bad =>
          rw [hfind] at h
          simp at h
        | none =>
          rw [hfind] at h
          cases hrec : enqueueOutputs nodes tag line hops lineId s rest with
          | error e =>
            rw [hrec] at h
            simp at h
          | ok envs2 =>
            rw [hrec] at h
            simp only [Except.ok.injEq] at h
            subst h
            intro env henv
            rcases List.mem_append.1 henv with hl | hr
            · rcases List.mem_map.1 hl with ⟨t, _, rfl⟩
              exact ⟨rfl, rfl⟩
            · exact ih envs2 hrec env hr

theorem enqueueOutputs_error_store (nodes : List Node) (tag line : String) (hops : Nat)
    (lineId : String) (s : MetricsStore) (emitted : List (TagsVal × String))
    (msg : String) (s2 : MetricsStore)
    (h : enqueueOutputs nodes tag line hops lineId s emitted = .error (msg, s2)) :
    s2 = s.record_error tag msg (some line) := by
  induction emitted generalizing msg s2 with
  | nil => simp [enqueueOutputs] at h
  | cons p rest ih =>
    obtain ⟨tv, outLine⟩ := p
    cases tv with
    | nonList ty =>
      simp only [enqueueOutputs, Except.error.injEq, Prod.mk.injEq] at h
      rw [← h.1, ← h.2]
    | list ts =>
      rw [enqueueOutputs] at h
      by_cases hts : ts = []
      · rw [if_pos hts] at h
        simp only [Except.error.injEq, Prod.mk.injEq] at h
        rw [← h.1, ← h.2]
      · rw [if_neg hts] at h
        cases hfind : ts.find? (fun t => !(knownTag nodes t)) with
        | some bad =>
          rw [hfind] at h
          simp only [Except.error.injEq, Prod.mk.injEq] at h
          rw [← h.1, ← h.2]
        | none =>
          rw [hfind] at h
          cases hrec : enqueueOutputs nodes tag line hops lineId s rest with
          | error e =>
            obtain ⟨m0, st0⟩ := e
            rw [hrec] at h
            simp only [Except.error.injEq, Prod.mk.injEq] at h
            exact h.1 ▸ h.2 ▸ ih m0 st0 hrec
          | ok envs2 =>
            rw [hrec] at h
            simp at h

theorem enqueueOutputs_ok_of_valid (nodes : List Node) (tag line : String) (hops : Nat)
    (lineId : String) (s : MetricsStore) (emitted : List (TagsVal × String)) :
    ValidEmitted nodes emitted →
      enqueueOutputs nodes tag line hops lineId s emitted =
        .ok (fanoutEnvelopes hops lineId emitted) := by
  induction emitted with
  | nil =>
    intro _
    simp [enqueueOutputs, fanoutEnvelopes]
  | cons p rest ih =>
    intro hv
    obtain ⟨ts, hts, htsne, htsall⟩ := hv p (List.mem_cons_self p rest)
    have hrest : ValidEmitted nodes rest := fun q hq => hv q (List.mem_cons_of_mem p hq)
    obtain ⟨tv, outLine⟩ := p
    simp only at hts
    subst hts
    rw [enqueueOutputs, if_neg htsne]
    have hfind : ts.find? (fun t => !(knownTag nodes t)) = none := by
      rw [List.find?_eq_none]
      intro t ht
      simp [htsall t ht]
    rw [hfind, ih hrest]
    simp [fanoutEnvelopes]

theorem dequeAppend_length_le {α : Type} (m : Nat) (xs : List α) (x : α)
    (h : xs.length ≤ m) : (dequeAppend m xs x).length ≤ m := by
  unfold dequeAppend
  by_cases hlt : m < (xs ++ [x]).length
  · rw [if_pos hlt]
    simp only [List.length_drop]
    omega
  · rw [if_neg hlt]
    simp only [List.length_append, List.length_singleton] at hlt ⊢
    omega

theorem dequeAppend_evict {α : Type} (m : Nat) (xs : List α) (x : α)
    (hfull : xs.length = m) (hpos : 0 < m) : dequeAppend m xs x = xs.tail ++ [x] := by
  unfold dequeAppend
  have hlt : m < (xs ++ [x]).length := by
    simp only [List.length_append, List.length_singleton]
    omega
  rw [if_pos hlt]
  have hdrop : (xs ++ [x]).length - m = 1 := by
    simp only [List.length_append, List.length_singleton]
    omega
  rw [hdrop]
  cases xs with
  | nil =>
    simp only [List.length_nil] at hfull
    omega
  | cons a as => simp

theorem start_trace_bounded (s : MetricsStore) (l : String) (h : StoreBounded s) :
    StoreBounded (s.start_trace l).2 := by
  unfold MetricsStore.start_trace
  by_cases he : s.traceEnabled = false
  · rw [if_pos he]
    exact h
  · rw [if_neg he]
    exact h

theorem add_trace_step_bounded (s : MetricsStore) (lineId pt ic oc : String)
    (tags : List String) (t : Nat) (h : StoreBounded s) :
    StoreBounded (s.add_trace_step lineId pt ic oc tags t) := by
  unfold MetricsStore.add_trace_step
  by_cases he : s.traceEnabled = false ∨ lineId = ""
  · rw [if_pos he]
    exact h
  · rw [if_neg he]
    cases lookupA s.activeTraces lineId with
    | none => exact h
    | some ti => exact h

theorem complete_trace_bounded (s : MetricsStore) (lineId fc : String) (h : StoreBounded s) :
    StoreBounded (s.complete_trace lineId fc) := by
  unfold MetricsStore.complete_trace
  by_cases he : s.traceEnabled = false ∨ lineId = ""
  · rw [if_pos he]
    exact h
  · rw [if_neg he]
    cases lookupA s.activeTraces lineId with
    | none => exact h
    | some ti => exact ⟨dequeAppend_length_le _ _ _ h.1, h.2⟩

theorem record_processor_metrics_bounded (s : MetricsStore) (pt : String) (t : Nat) (ok : Bool)
    (h : StoreBounded s) : StoreBounded (s.record_processor_metrics pt t ok) := h

theorem record_error_bounded (s : MetricsStore) (pt msg : String) (lc : Option String)
    (h : StoreBounded s) : StoreBounded (s.record_error pt msg lc) :=
  ⟨h.1, dequeAppend_length_le _ _ _ h.2⟩

theorem foldl_bounded {β : Type} (f : MetricsStore → β → MetricsStore)
    (hf : ∀ s b, StoreBounded s → StoreBounded (f s b)) :
    ∀ (l : List β) (s : MetricsStore), StoreBounded s → StoreBounded (List.foldl f s l) := by
  intro l
  induction l with
  | nil => intro s hs; exact hs
  | cons b rest ih => intro s hs; exact ih (f s b) (hf s b hs)

theorem callProc_store_bounded (p : NodeProc) (line : String) (s : MetricsStore)
    (h : StoreBounded s) : StoreBounded (callProc p line s).store := by
  cases p with
  | raw f => exact h
  | base pt st process =>
    unfold callProc
    refine foldl_bounded _ ?_ _ _ ?_
    · intro s1 r h1
      by_cases hc : s1.traceEnabled = true ∧ (if s.traceEnabled = true then s.start_trace line else ("", s)).1 ≠ ""
      · rw [if_pos hc]
        exact add_trace_step_bounded _ _ _ _ _ _ _ h1
      · rw [if_neg hc]
        exact h1
    · by_cases he : s.traceEnabled = true
      · rw [if_pos he]
        exact start_trace_bounded s line h
      · rw [if_neg he]
        exact h

theorem callProc_onComplete_bounded (p : NodeProc) (line : String) (s s1 : MetricsStore)
    (h : StoreBounded s1) : StoreBounded ((callProc p line s).onComplete s1) := by
  cases p with
  | raw f => exact h
  | base pt st process =>
    show StoreBounded (MetricsStore.record_processor_metrics _ pt 0 true)
    refine record_processor_metrics_bounded _ _ _ _ ?_
    by_cases hc : s1.traceEnabled = true ∧
        (if s.traceEnabled = true then s.start_trace line else ("", s)).1 ≠ "" ∧
        (process st line).1 ≠ []
    · rw [if_pos hc]
      exact complete_trace_bounded _ _ _ h
    · rw [if_neg hc]
      exact h

theorem callProc_onAbort_bounded (p : NodeProc) (line : String) (s s1 : MetricsStore)
    (h : StoreBounded s1) : StoreBounded ((callProc p line s).onAbort s1) := by
  cases p with
  | raw f => exact h
  | base pt st process => exact record_processor_metrics_bounded _ _ _ _ h

theorem engine_trace_id_bounded (st : RouterState) (e : Envelope)
    (h : StoreBounded st.store) : StoreBounded (engine_trace_id st e).2 := by
  unfold engine_trace_id
  by_cases hc : e.lineId = "" ∧ st.store.traceEnabled = true
  · rw [if_pos hc]
    exact start_trace_bounded _ _ h
  · rw [if_neg hc]
    exact h

theorem router_step_bounded (maxHops : Nat) (st : RouterState) (h : StoreBounded st.store) :
    (∀ st1, router_step maxHops st = .done st1 → StoreBounded st1.store) ∧
    (∀ st1, router_step maxHops st = .next st1 → StoreBounded st1.store) ∧
    (∀ msg st1, router_step maxHops st = .fatal msg st1 → StoreBounded st1.store) := by
  obtain ⟨nds, pnd, out, sst⟩ := st
  have hs : StoreBounded sst := h
  cases pnd with
  | nil =>
    refine ⟨?_, ?_, ?_⟩
    · intro st1 h1
      simp only [router_step] at h1
      cases h1
      exact hs
    · intro st1 h1
      simp only [router_step] at h1
      cases h1
    · intro msg st1 h1
      simp only [router_step] at h1
      cases h1
  | cons e rest =>
    by_cases hend : e.tag = "end"
    · refine ⟨?_, ?_, ?_⟩
      · intro st1 h1
        simp only [router_step, if_pos hend] at h1
        cases h1
      · intro st1 h1
        simp only [router_step, if_pos hend] at h1
        cases h1
        by_cases hc : e.lineId ≠ "" ∧ sst.traceEnabled = true
        · simp only [if_pos hc]
          exact complete_trace_bounded _ _ _ (add_trace_step_bounded _ _ _ _ _ _ _ hs)
        · simp only [if_neg hc]
          exact hs
      · intro msg st1 h1
        simp only [router_step, if_pos hend] at h1
        cases h1
    · by_cases hhops : maxHops < e.hops
      · refine ⟨?_, ?_, ?_⟩
        · intro st1 h1
          simp only [router_step, if_neg hend, if_pos hhops] at h1
          cases h1
        · intro st1 h1
          simp only [router_step, if_neg hend, if_pos hhops] at h1
          cases h1
        · intro msg st1 h1
          simp only [router_step, if_neg hend, if_pos hhops] at h1
          cases h1
          exact record_error_bounded _ _ _ _ hs
      · cases hlook : lookupNode nds e.tag with
        | none =>
          refine ⟨?_, ?_, ?_⟩
          · intro st1 h1
            simp only [router_step, if_neg hend, if_neg hhops, hlook] at h1
            cases h1
          · intro st1 h1
            simp only [router_step, if_neg hend, if_neg hhops, hlook] at h1
            cases h1
          · intro msg st1 h1
            simp only [router_step, if_neg hend, if_neg hhops, hlook] at h1
            cases h1
            exact record_error_bounded _ _ _ _ hs
        | some node =>
          have hid : StoreBounded (engine_trace_id ⟨nds, e :: rest, out, sst⟩ e).2 :=
            engine_trace_id_bounded _ e hs
          have hcall : StoreBounded
              (callProc node.proc e.line (engine_trace_id ⟨nds, e :: rest, out, sst⟩ e).2).store :=
            callProc_store_bounded _ _ _ hid
          cases henq : enqueueOutputs nds e.tag e.line e.hops
              (engine_trace_id ⟨nds, e :: rest, out, sst⟩ e).1
              (callProc node.proc e.line (engine_trace_id ⟨nds, e :: rest, out, sst⟩ e).2).store
              (callProc node.proc e.line (engine_trace_id ⟨nds, e :: rest, out, sst⟩ e).2).emitted with
          | error err =>
            refine ⟨?_, ?_, ?_⟩
            · intro st1 h1
              simp only [router_step, if_neg hend, if_neg hhops, hlook, henq] at h1
              cases h1
            · intro st1 h1
              simp only [router_step, if_neg hend, if_neg hhops, hlook, henq] at h1
              cases h1
            · intro msg st1 h1
              simp only [router_step, if_neg hend, if_neg hhops, hlook, henq] at h1
              cases h1
              refine callProc_onAbort_bounded _ _ _ _ ?_
              obtain ⟨m0, s0⟩ := err
              rw [enqueueOutputs_error_store _ _ _ _ _ _ _ _ _ henq]
              exact record_error_bounded _ _ _ _ hcall
          | ok envs =>
            refine ⟨?_, ?_, ?_⟩
            · intro st1 h1
              simp only [router_step, if_neg hend, if_neg hhops, hlook, henq] at h1
              cases h1
            · intro st1 h1
              simp only [router_step, if_neg hend, if_neg hhops, hlook, henq] at h1
              cases h1
              exact callProc_onComplete_bounded _ _ _ _ hcall
            · intro msg st1 h1
              simp only [router_step, if_neg hend, if_neg hhops, hlook, henq] at h1
              cases h1

theorem run_fuel_next (maxHops fuel : Nat) (st st1 : RouterState)
    (h : router_step maxHops st = .next st1) :
    run_fuel maxHops (fuel + 1) st = run_fuel maxHops fuel st1 := by
  simp [run_fuel, h]

theorem run_fuel_done (maxHops fuel : Nat) (st st1 : RouterState)
    (h : router_step maxHops st = .done st1) :
    run_fuel maxHops (fuel + 1) st = some (.finished st1) := by
  simp [run_fuel, h]

theorem run_fuel_fatal (maxHops fuel : Nat) (st st1 : RouterState) (msg : String)
    (h : router_step maxHops st = .fatal msg st1) :
    run_fuel maxHops (fuel + 1) st = some (.raised msg st1) := by
  simp [run_fuel, h]

theorem run_ends (maxHops : Nat) (nds : List Node) (s : MetricsStore) :
    ∀ (es out : List String),
      run_fuel maxHops (es.length + 1)
        { nodes := nds, pending := es.map endEnv, output := out, store := s } =
      some (.finished { nodes := nds, pending := [], output := out ++ es, store := s }) := by
  intro es
  induction es with
  | nil =>
    intro out
    simp [run_fuel, router_step]
  | cons l rest ih =>
    intro out
    have hstep : router_step maxHops
        { nodes := nds, pending := endEnv l :: rest.map endEnv, output := out, store := s } =
        .next { nodes := nds, pending := rest.map endEnv, output := out ++ [l], store := s } := by
      simp [router_step, endEnv]
    simp only [List.map_cons, List.length_cons]
    rw [run_fuel_next _ _ _ _ hstep, ih (out ++ [l])]
    simp

theorem run_ident_aux (maxHops : Nat) (s : MetricsStore) (hs : s.traceEnabled = false) :
    ∀ (ls es out : List String),
      run_fuel maxHops (2 * ls.length + es.length + 1)
        { nodes := identNodes, pending := ls.map startEnv ++ es.map endEnv,
          output := out, store := s } =
      some (.finished
        { nodes := identNodes, pending := [], output := out ++ es ++ ls, store := s }) := by
  intro ls
  induction ls with
  | nil =>
    intro es out
    simp only [List.map_nil, List.nil_append, List.length_nil, Nat.mul_zero, Nat.zero_add]
    rw [run_ends maxHops identNodes s es out]
    simp
  | cons l rest ih =>
    intro es out
    have hstep : router_step maxHops
        { nodes := identNodes, pending := startEnv l :: (rest.map startEnv ++ es.map endEnv),
          output := out, store := s } =
        .next { nodes := identNodes,
                pending := (rest.map startEnv ++ es.map endEnv) ++ [endEnv l],
                output := out, store := s } := by
      simp [router_step, startEnv, endEnv, identNodes, identProc, engine_trace_id, callProc,
        enqueueOutputs, knownTag, lookupNode, updateNode, hs]
    have harith : 2 * (l :: rest).length + es.length + 1 =
        (2 * rest.length + (es ++ [l]).length + 1) + 1 := by
      simp only [List.length_cons, List.length_append, List.length_nil]
      ring
    rw [List.map_cons, List.cons_append, harith, run_fuel_next _ _ _ _ hstep]
    have hpend : (rest.map startEnv ++ es.map endEnv) ++ [endEnv l] =
        rest.map startEnv ++ (es ++ [l]).map endEnv := by
      simp
    rw [hpend, ih (es ++ [l]) out]
    simp

theorem mem_insertSorted (le : FsEntry → FsEntry → Bool) (e x : FsEntry) (l : List FsEntry) :
    x ∈ insertSorted le e l ↔ x = e ∨ x ∈ l := by
  induction l with
  | nil => simp [insertSorted]
  | cons a rest ih =>
    unfold insertSorted
    by_cases h : le e a
    · rw [if_pos h]
      simp [or_comm, or_assoc, or_left_comm]
    · rw [if_neg h]
      simp [ih]
      tauto

theorem mem_sortEntries (le : FsEntry → FsEntry → Bool) (x : FsEntry) (l : List FsEntry) :
    x ∈ sortEntries le l ↔ x ∈ l := by
  induction l with
  | nil => simp [sortEntries]
  | cons a rest ih => simp [sortEntries, mem_insertSorted, ih]

theorem moveFileTo_name_mem (dir : List FsEntry) (e : FsEntry) (n : String)
    (h : n = e.name ∨ n ∈ dir.map (fun u => u.name)) :
    n ∈ (moveFileTo dir e).map (fun u => u.name) := by
  unfold moveFileTo
  rcases h with rfl | h
  · exact List.mem_map.2 ⟨e, List.mem_append_right _ (List.mem_singleton.2 rfl), rfl⟩
  · rcases List.mem_map.1 h with ⟨u, hu, rfl⟩
    by_cases hn : u.name = e.name
    · exact List.mem_map.2 ⟨e, List.mem_append_right _ (List.mem_singleton.2 rfl), hn.symm⟩
    · refine List.mem_map.2 ⟨u, List.mem_append_left _ ?_, rfl⟩
      refine List.mem_filter.2 ⟨hu, ?_⟩
      simp [hn]

theorem recover_loop_no_files (items : List FsEntry) :
    ∀ d : QueueDirs,
      (∀ x ∈ d.underprocess, x.isFile = true →
        ∃ it ∈ items, it.isFile = true ∧ it.name = x.name) →
      ((recover_loop items d).underprocess.filter (fun e => e.isFile)) = [] := by
  induction items with
  | nil =>
    intro d hd
    simp only [recover_loop]
    rw [List.filter_eq_nil_iff]
    intro a ha hfa
    obtain ⟨it, hit, _⟩ := hd a ha hfa
    exact absurd hit (List.not_mem_nil it)
  | cons it rest ih =>
    intro d hd
    unfold recover_loop
    by_cases hf : it.isFile = true
    · rw [if_pos hf]
      apply ih
      intro x hx hxf
      have hx2 := List.mem_filter.1 hx
      have hxne : x.name ≠ it.name := by
        have := hx2.2
        simpa using this
      obtain ⟨it2, hit2, hf2, hn2⟩ := hd x hx2.1 hxf
      rcases List.mem_cons.1 hit2 with heq | hmem
      · exact absurd (heq ▸ hn2) (fun hh => hxne hh.symm)
      · exact ⟨it2, hmem, hf2, hn2⟩
    · rw [if_neg hf]
      apply ih
      intro x hx hxf
      obtain ⟨it2, hit2, hf2, hn2⟩ := hd x hx hxf
      rcases List.mem_cons.1 hit2 with heq | hmem
      · exact absurd (heq ▸ hf2) hf
      · exact ⟨it2, hmem, hf2, hn2⟩

theorem recover_loop_names (items : List FsEntry) :
    ∀ (d : QueueDirs) (n : String),
      ((∃ it ∈ items, it.isFile = true ∧ it.name = n) ∨
        n ∈ d.unprocessed.map (fun u => u.name)) →
      n ∈ (recover_loop items d).unprocessed.map (fun u => u.name) := by
  induction items with
  | nil =>
    intro d n h
    rcases h with ⟨it, hit, _⟩ | h
    · exact absurd hit (List.not_mem_nil it)
    · simpa [recover_loop] using h
  | cons it rest ih =>
    intro d n h
    unfold recover_loop
    by_cases hf : it.isFile = true
    · rw [if_pos hf]
      apply ih
      rcases h with ⟨it2, hit2, hf2, hn2⟩ | h
      · rcases List.mem_cons.1 hit2 with heq | hmem
        · right
          subst heq
          exact moveFileTo_name_mem _ _ _ (Or.inl hn2.symm)
        · exact Or.inl ⟨it2, hmem, hf2, hn2⟩
      · right
        exact moveFileTo_name_mem _ _ _ (Or.inr h)
    · rw [if_neg hf]
      apply ih
      rcases h with ⟨it2, hit2, hf2, hn2⟩ | h
      · rcases List.mem_cons.1 hit2 with heq | hmem
        · exact absurd (heq ▸ hf2) hf
        · exact Or.inl ⟨it2, hmem, hf2, hn2⟩
      · exact Or.inr h

theorem lookupNode_insertNode (l : List Node) (n : Node) (t : String) :
    (lookupNode (insertNode l n) t).isSome = true ↔
      (lookupNode l t).isSome = true ∨ t = n.tag := by
  induction l with
  | nil =>
    by_cases h : n.tag = t
    · simp [insertNode, lookupNode, h, eq_comm]
    · simp only [insertNode, lookupNode, if_neg h]
      simp [Option.isSome]
      exact fun heq => h heq.symm
  | cons m rest ih =>
    by_cases hmn : m.tag = n.tag
    · rw [insertNode, if_pos hmn]
      by_cases ht : n.tag = t
      · simp [lookupNode, ht, hmn]
      · have hmt : ¬(m.tag = t) := fun hc => ht (hmn ▸ hc)
        simp only [lookupNode, if_neg ht, if_neg hmt]
        have : ¬(t = n.tag) := fun hc => ht hc.symm
        simp [this]
    · rw [insertNode, if_neg hmn]
      by_cases ht : m.tag = t
      · simp [lookupNode, ht]
      · simp only [lookupNode, if_neg ht]
        exact ih

theorem registerNodes_ok_iff (registry : String → Option ProcSpec) :
    ∀ (cfgs : List NodeCfg) (acc : List Node) (s : MetricsStore),
      exceptOk (registerNodes registry cfgs acc s).1 = true ↔
        ∀ nc ∈ cfgs, (registry nc.type).isSome = true := by
  intro cfgs
  induction cfgs with
  | nil =>
    intro acc s
    simp [registerNodes, exceptOk]
  | cons nc rest ih =>
    intro acc s
    cases hreg : registry nc.type with
    | none =>
      simp only [registerNodes, hreg, exceptOk]
      constructor
      · intro h
        cases h
      · intro h
        have := h nc (List.mem_cons_self nc rest)
        rw [hreg] at this
        cases this
    | some spec =>
      simp only [registerNodes, hreg]
      rw [ih]
      simp [hreg]

theorem registerNodes_ok_tags (registry : String → Option ProcSpec) :
    ∀ (cfgs : List NodeCfg) (acc : List Node) (s : MetricsStore)
      (nodes : List Node) (s1 : MetricsStore),
      registerNodes registry cfgs acc s = (.ok nodes, s1) →
      ∀ t, (lookupNode nodes t).isSome = true ↔
        ((lookupNode acc t).isSome = true ∨ t ∈ cfgs.map NodeCfg.tag) := by
  intro cfgs
  induction cfgs with
  | nil =>
    intro acc s nodes s1 h t
    simp only [registerNodes, Prod.mk.injEq, Except.ok.injEq] at h
    rw [← h.1]
    simp
  | cons nc rest ih =>
    intro acc s nodes s1 h t
    cases hreg : registry nc.type with
    | none =>
      rw [registerNodes, hreg] at h
      simp at h
    | some spec =>
      rw [registerNodes, hreg] at h
      rw [ih _ _ _ _ h t, lookupNode_insertNode]
      simp [or_assoc]

theorem checkRoutes_none_iff (nodes : List Node) :
    ∀ cfgs : List NodeCfg, checkRoutes nodes cfgs = none ↔
      ∀ nc ∈ cfgs, ∀ r ∈ nc.routes, knownTag nodes r = true := by
  intro cfgs
  induction cfgs with
  | nil => simp [checkRoutes]
  | cons nc rest ih =>
    rw [checkRoutes]
    cases hfind : nc.routes.find? (fun r => !(knownTag nodes r)) with
    | some bad =>
      simp only
      constructor
      · intro h
        cases h
      · intro h
        have hbad := List.find?_some hfind
        have hmem : bad ∈ nc.routes := List.mem_of_find?_eq_some hfind
        have := h nc (List.mem_cons_self nc rest) bad hmem
        simp [this] at hbad
    | none =>
      simp only
      rw [ih]
      have hroutes : ∀ r ∈ nc.routes, knownTag nodes r = true := by
        intro r hr
        have := List.find?_eq_none.1 hfind r hr
        simpa using this
      constructor
      · intro h nc2 hnc2 r hr
        rcases List.mem_cons.1 hnc2 with heq | hmem
        · subst heq
          exact hroutes r hr
        · exact h nc2 hmem r hr
      · intro h nc2 hnc2 r hr
        exact h nc2 (List.mem_cons_of_mem nc hnc2) r hr

theorem knownTag_iff (nodes : List Node) (r : String) :
    knownTag nodes r = true ↔ (lookupNode nodes r).isSome = true ∨ r = "end" := by
  simp [knownTag]

/-! ## Claim theorems -/

/-- C1 (counterexample): `build_routing` rejects a config with a `start` node
but no `end` node — the claim that such a config loads successfully is false —
and it accepts a config with duplicated tags, so tag uniqueness is not part of
validation either. -/
theorem C1_counterexample :
    (build_routing ident_registry cfg_no_end (default_store false)).1 =
      Except.error "Config must include an end node" ∧
    exceptOk (build_routing ident_registry cfg_dup (default_store false)).1 = true :=
  ⟨rfl, rfl⟩

/-- C1 (amended): building the routing table succeeds exactly when every
`type` resolves, a `start` node exists, an `end` node **also** exists, and
every declared route target is a known node tag or the literal `end`; tag
uniqueness is not validated (a duplicate tag silently keeps the last entry). -/
theorem C1_amended (registry : String → Option ProcSpec) (cfg : List NodeCfg) (s : MetricsStore) :
    exceptOk (build_routing registry cfg s).1 = true ↔
      ((∀ nc ∈ cfg, (registry nc.type).isSome = true) ∧
       "start" ∈ cfg.map NodeCfg.tag ∧
       "end" ∈ cfg.map NodeCfg.tag ∧
       (∀ nc ∈ cfg, ∀ r ∈ nc.routes, r ∈ cfg.map NodeCfg.tag ∨ r = "end")) := by
  unfold build_routing
  split
  case _ e s1 hreg =>
    simp only [exceptOk]
    constructor
    · intro h
      cases h
    · rintro ⟨h1, -, -, -⟩
      have hok := (registerNodes_ok_iff registry cfg [] s).2 h1
      rw [hreg] at hok
      simp [exceptOk] at hok
  case _ nodes s1 hreg =>
    have hall : ∀ nc ∈ cfg, (registry nc.type).isSome = true := by
      have hok := (registerNodes_ok_iff registry cfg [] s).1
      rw [hreg] at hok
      exact hok rfl
    have htags : ∀ t, (lookupNode nodes t).isSome = true ↔ t ∈ cfg.map NodeCfg.tag := by
      intro t
      have := registerNodes_ok_tags registry cfg [] s nodes s1 hreg t
      simpa [lookupNode] using this
    by_cases hstart : (lookupNode nodes "start").isSome = true
    · rw [if_neg (by simp [hstart])]
      by_cases hendt : (lookupNode nodes "end").isSome = true
      · rw [if_neg (by simp [hendt])]
        cases hchk : checkRoutes nodes cfg with
        | some e2 =>
          simp only [exceptOk]
          constructor
          · intro h
            cases h
          · rintro ⟨-, -, -, hroutes⟩
            have : checkRoutes nodes cfg = none := by
              rw [checkRoutes_none_iff]
              intro nc hnc r hr
              rw [knownTag_iff, htags]
              exact hroutes nc hnc r hr
            rw [hchk] at this
            cases this
        | none =>
          simp only [exceptOk, true_iff]
          refine ⟨hall, (htags "start").1 hstart, (htags "end").1 hendt, ?_⟩
          intro nc hnc r hr
          rw [← htags, ← knownTag_iff]
          exact (checkRoutes_none_iff nodes cfg).1 hchk nc hnc r hr
      · rw [if_pos (by simp [hendt])]
        simp only [exceptOk]
        constructor
        · intro h
          cases h
        · rintro ⟨-, -, hend2, -⟩
          exact absurd ((htags "end").2 hend2) hendt
    · rw [if_pos (by simp [hstart])]
      simp only [exceptOk]
      constructor
      · intro h
        cases h
      · rintro ⟨-, hstart2, -, -⟩
        exact absurd ((htags "start").2 hstart2) hstart

/-- C2: every successor envelope appended by the engine carries `hops + 1` of
its parent, so `hops` is monotone along a path; and an envelope at the head of
the queue whose tag is not the sink (the sink check precedes the hop check in
the loop) with `hops > maxHops` makes the engine record an error tagged
`router` and abort fatally — the node table, processor states and output are
untouched, so no stage is invoked and nothing with `hops > maxHops` is ever
dispatched. -/
theorem C2_hop_bound :
    (∀ (nodes : List Node) (tag line : String) (hops : Nat) (lineId : String)
       (s : MetricsStore) (emitted : List (TagsVal × String)) (envs : List Envelope),
       enqueueOutputs nodes tag line hops lineId s emitted = .ok envs →
       ∀ env ∈ envs, env.hops = hops + 1) ∧
    (∀ (maxHops : Nat) (st : RouterState) (e : Envelope) (rest : List Envelope),
       st.pending = e :: rest → e.tag ≠ "end" → maxHops < e.hops →
       router_step maxHops st =
         .fatal (hop_message maxHops e.tag)
           { st with
               pending := rest
               store := st.store.record_error "router" (hop_message maxHops e.tag)
                 (some e.line) }) := by
  constructor
  · intro nodes tag line hops lineId s emitted envs h env henv
    exact (enqueueOutputs_ok_mem nodes tag line hops lineId s emitted envs h env henv).1
  · intro maxHops st e rest hp htag hh
    obtain ⟨nds, pnd, out, sst⟩ := st
    simp only at hp
    subst hp
    simp only [router_step, if_neg htag, if_pos hh]

theorem C2_hop_bound_witness :
    (∀ env ∈ [endEnv "l"], env.hops = 0 + 1) ∧
    router_step 4
        { nodes := [], pending := [{ tag := "loop", line := "x", hops := 5, lineId := "" }],
          output := [], store := default_store false } =
      .fatal (hop_message 4 "loop")
        { nodes := [], pending := [], output := [],
          store := (default_store false).record_error "router" (hop_message 4 "loop")
            (some "x") } := by
  constructor
  · exact C2_hop_bound.1 identNodes "t" "l" 0 "" (default_store false)
      [(TagsVal.list ["end"], "l")] [endEnv "l"] rfl
  · exact C2_hop_bound.2 4
      { nodes := [], pending := [{ tag := "loop", line := "x", hops := 5, lineId := "" }],
        output := [], store := default_store false }
      { tag := "loop", line := "x", hops := 5, lineId := "" } [] rfl (by decide) (by decide)

/-- C3 (counterexample): a `start` stage that yields a non-list tag value makes
the run raise, but the single recorded error entry carries the stage's tag
`start`, not `router` — the claim that such errors are recorded under stage
tag `router` is false. -/
theorem C3_counterexample :
    run_raised 1000 3 (init_state badEmitNodes "start" ["x"] (default_store false)) = true ∧
    run_error_processors 1000 3 (init_state badEmitNodes "start" ["x"] (default_store false)) =
      ["start"] ∧
    "start" ≠ "router" :=
  ⟨rfl, rfl, by decide⟩

/-- C3 (amended): a stage emission whose tag value is not a list, is an empty
list, or contains an unknown tag is fatal for the current file: the engine
records exactly one error entry — under the **emitting stage's** tag, not
`router` — and raises, as the concrete non-list run shows. -/
theorem C3_amended :
    (∀ (nodes : List Node) (tag line : String) (hops : Nat) (lineId : String)
       (s : MetricsStore) (emitted : List (TagsVal × String)) (msg : String)
       (s2 : MetricsStore),
       enqueueOutputs nodes tag line hops lineId s emitted = .error (msg, s2) →
       s2 = s.record_error tag msg (some line)) ∧
    run_raised 1000 3 (init_state badEmitNodes "start" ["x"] (default_store false)) = true ∧
    run_error_processors 1000 3 (init_state badEmitNodes "start" ["x"] (default_store false)) =
      ["start"] :=
  ⟨enqueueOutputs_error_store, rfl, rfl⟩

theorem C3_amended_witness :
    enqueueOutputs [] "s1" "l" 0 "" (default_store false) [(TagsVal.nonList "bool", "l")] =
      .error (nonlist_message "s1" "bool",
        { maxTraces := 1000, maxErrors := 100
          metrics := [("s1", { count := 0, totalTime := 0, errors := 1 })]
          traces := []
          errors := [{ processor := "s1", message := nonlist_message "s1" "bool",
                       lineContent := some "l" }]
          traceEnabled := false, activeTraces := [], lineCounter := 0 }) ∧
    ({ maxTraces := 1000, maxErrors := 100
       metrics := [("s1", { count := 0, totalTime := 0, errors := 1 })]
       traces := []
       errors := [{ processor := "s1", message := nonlist_message "s1" "bool",
                    lineContent := some "l" }]
       traceEnabled := false, activeTraces := [], lineCounter := 0 } : MetricsStore) =
      (default_store false).record_error "s1" (nonlist_message "s1" "bool") (some "l") := by
  refine ⟨rfl, ?_⟩
  exact C3_amended.1 [] "s1" "l" 0 "" (default_store false) [(TagsVal.nonList "bool", "l")]
    (nonlist_message "s1" "bool") _ rfl

/-- C4 (counterexample): in the two-`LineCounter` scenario (stages tagged `c1`
and `c2`, three lines routed through both), the `/stats` projection reports
`count = 4` for each — `build_routing` records an initialising metrics sample
at registration, so the count is `1 + 3`, not the claimed `3`. -/
theorem C4_counterexample :
    lc_stats_count "c1" = some 4 ∧ lc_stats_count "c2" = some 4 ∧ (4 : Nat) ≠ 3 :=
  ⟨rfl, rfl, by decide⟩

/-- C4 (amended): the two `LineCounter` stages keep independent counters:
registration initialises each `/stats` count to 1, three routed lines bring
each to 4 (one registration sample plus one per invocation), each stage's
private `state["count"]` is 3, and the doubled numbering of the output lines
shows every line traversed both counters. -/
theorem C4_amended :
    lc_registration_count "c1" = some 1 ∧ lc_registration_count "c2" = some 1 ∧
    lc_stats_count "c1" = some 4 ∧ lc_stats_count "c2" = some 4 ∧
    lc_internal_count "c1" = some 3 ∧ lc_internal_count "c2" = some 3 ∧
    run_output 1000 13 lc_state = some ["1: 1: a", "2: 2: b", "3: 3: c"] :=
  ⟨rfl, rfl, rfl, rfl, rfl, rfl, rfl⟩

/-- C5 (counterexample): with tracing enabled, one input line through one
`BaseProcessor` stage emitting `(["end"], line)` completes **two** traces, not
one: the stage wrapper starts and completes its own trace (`line_2`, path
`["start"]`) while the engine's trace (`line_1`) only ever receives the
synthetic `end` step — so a line does not have exactly one trace and stages do
not append to the engine's trace. -/
theorem C5_counterexample :
    (run_traces 1000 3 (init_state traceNodes "start" ["a"] (default_store true))).map
        (fun t => t.originalContent) = ["a", "a"] ∧
    (run_traces 1000 3 (init_state traceNodes "start" ["a"] (default_store true))).map
        (fun t => t.lineId) = ["line_2", "line_1"] ∧
    (run_traces 1000 3 (init_state traceNodes "start" ["a"] (default_store true))).map
        (fun t => t.path) = [["start"], ["end"]] :=
  ⟨rfl, rfl, rfl⟩

/-- C5 (amended): when tracing is enabled the engine starts a trace at ingress
and every fan-out copy inherits the parent's `trace_id` unchanged; the
engine's trace is finalized exactly when an `end` envelope with that id is
popped; but each `BaseProcessor` stage call additionally starts, fills and
completes its own separate trace, so one line through one stage yields two
completed traces — the stage's (path `["start"]`) and the engine's (path
`["end"]`, holding no stage step). -/
theorem C5_amended :
    (∀ (nodes : List Node) (tag line : String) (hops : Nat) (lineId : String)
       (s : MetricsStore) (emitted : List (TagsVal × String)) (envs : List Envelope),
       enqueueOutputs nodes tag line hops lineId s emitted = .ok envs →
       ∀ env ∈ envs, env.lineId = lineId) ∧
    (∀ (maxHops : Nat) (st : RouterState) (e : Envelope) (rest : List Envelope),
       st.pending = e :: rest → e.tag = "end" → e.lineId ≠ "" →
       st.store.traceEnabled = true →
       router_step maxHops st =
         .next { st with
                   pending := rest
                   output := st.output ++ [e.line]
                   store := (st.store.add_trace_step e.lineId "end" e.line e.line ["end"]
                     0).complete_trace e.lineId e.line }) ∧
    (run_traces 1000 3 (init_state traceNodes "start" ["a"] (default_store true))).map
        (fun t => (t.lineId, t.path)) = [("line_2", ["start"]), ("line_1", ["end"])] := by
  refine ⟨?_, ?_, rfl⟩
  · intro nodes tag line hops lineId s emitted envs h env henv
    exact (enqueueOutputs_ok_mem nodes tag line hops lineId s emitted envs h env henv).2
  · intro maxHops st e rest hp htag hid hen
    obtain ⟨nds, pnd, out, sst⟩ := st
    simp only at hp hid hen
    subst hp
    simp only [router_step, if_pos htag]
    rw [if_pos (show e.lineId ≠ "" ∧ sst.traceEnabled = true from ⟨hid, hen⟩)]

theorem C5_amended_witness :
    (∀ env ∈ [endEnv "l"], env.lineId = "") ∧
    router_step 7
        { nodes := [], pending := [{ tag := "end", line := "z", hops := 2, lineId := "line_9" }],
          output := [], store := default_store true } =
      .next { nodes := [], pending := [], output := ["z"],
              store := ((default_store true).add_trace_step "line_9" "end" "z" "z" ["end"]
                0).complete_trace "line_9" "z" } := by
  constructor
  · exact C5_amended.1 identNodes "t" "l" 0 "" (default_store false)
      [(TagsVal.list ["end"], "l")] [endEnv "l"] rfl
  · exact C5_amended.2.1 7
      { nodes := [], pending := [{ tag := "end", line := "z", hops := 2, lineId := "line_9" }],
        output := [], store := default_store true }
      { tag := "end", line := "z", hops := 2, lineId := "line_9" } [] rfl rfl (by decide) rfl

/-- C6: the identity-stage law — with a `start` node emitting
`(["end"], line)` for each line, the run drains the FIFO queue and the output
equals the input, in input order, for every finite input and every hop bound. -/
theorem C6_identity_law (lines : List String) (maxHops : Nat) :
    run_output maxHops (2 * lines.length + 1)
      (init_state identNodes "start" lines (default_store false)) = some lines := by
  have h := run_ident_aux maxHops (default_store false) rfl lines [] []
  simp only [List.map_nil, List.append_nil, List.length_nil, Nat.add_zero] at h
  unfold run_output
  rw [show init_state identNodes "start" lines (default_store false) =
      { nodes := identNodes, pending := lines.map startEnv, output := [],
        store := default_store false } from rfl]
  rw [h]
  simp

/-- C7: a stage emitting `(["end", "end"], line)` causes `line` to be emitted
to the output exactly twice; in general a fully valid emission appends exactly
one envelope per tag at the queue tail, pairs in emission order and tags of
each pair in tag-list order (`fanoutEnvelopes`). -/
theorem C7_fanout :
    run_output 1000 4 (init_state fanoutNodes "start" ["x"] (default_store false)) =
      some ["x", "x"] ∧
    (∀ (nodes : List Node) (tag line : String) (hops : Nat) (lineId : String)
       (s : MetricsStore) (emitted : List (TagsVal × String)),
       ValidEmitted nodes emitted →
       enqueueOutputs nodes tag line hops lineId s emitted =
         .ok (fanoutEnvelopes hops lineId emitted)) :=
  ⟨rfl, fun nodes tag line hops lineId s emitted hv =>
    enqueueOutputs_ok_of_valid nodes tag line hops lineId s emitted hv⟩

theorem C7_fanout_witness :
    enqueueOutputs [] "t" "x" 0 "" (default_store false) [(TagsVal.list ["end", "end"], "x")] =
      .ok [{ tag := "end", line := "x", hops := 1, lineId := "" },
           { tag := "end", line := "x", hops := 1, lineId := "" }] := by
  exact C7_fanout.2 [] "t" "x" 0 "" (default_store false)
    [(TagsVal.list ["end", "end"], "x")]
    (by
      intro p hp
      rw [List.mem_singleton] at hp
      subst hp
      exact ⟨["end", "end"], rfl, by decide, by decide⟩)

/-- C8: startup recovery — `recover_underprocess` leaves no regular file in
`underprocess/` and re-homes every such file (by name) into `unprocessed/`
before the polling loop starts; in the crash scenario the stranded `x.txt` is
then claimed and processed like a fresh file: the first poll ends with
`processed/x.txt.out` and `processed/x.txt` present and both queue
directories empty. -/
theorem C8_startup_recovery :
    (∀ d : QueueDirs, ((recover_underprocess d).underprocess.filter (fun e => e.isFile)) = []) ∧
    (∀ (d : QueueDirs) (x : FsEntry), x ∈ d.underprocess → x.isFile = true →
      x.name ∈ (recover_underprocess d).unprocessed.map (fun u => u.name)) ∧
    (monitor_startup (fun _ => true) crash_dirs).processed =
      [{ name := "x.txt.out", isFile := true, mtime := 0 },
       { name := "x.txt", isFile := true, mtime := 5 }] ∧
    (monitor_startup (fun _ => true) crash_dirs).underprocess = [] ∧
    (monitor_startup (fun _ => true) crash_dirs).unprocessed = [] := by
  refine ⟨?_, ?_, rfl, rfl, rfl⟩
  · intro d
    apply recover_loop_no_files
    intro x hx hxf
    exact ⟨x, (mem_sortEntries _ x _).2 hx, hxf, rfl⟩
  · intro d x hx hxf
    apply recover_loop_names
    exact Or.inl ⟨x, (mem_sortEntries _ x _).2 hx, hxf, rfl⟩

theorem C8_startup_recovery_witness :
    ((recover_underprocess crash_dirs).underprocess.filter (fun e => e.isFile)) = [] ∧
    "x.txt" ∈ (recover_underprocess crash_dirs).unprocessed.map (fun u => u.name) := by
  constructor
  · exact C8_startup_recovery.1 crash_dirs
  · exact C8_startup_recovery.2.1 crash_dirs
      { name := "x.txt", isFile := true, mtime := 5 }
      (List.mem_singleton.2 rfl) rfl

/-- C9: the store holds at most `max_traces` completed traces and `max_errors`
error entries at every point of a run — the bounds hold initially (defaults
1000 and 100 under `get_instance`) and are preserved by every engine step —
and appending to a full ring evicts exactly the oldest entry, shown for both
the error ring (`record_error`) and the trace ring (`complete_trace`). -/
theorem C9_ring_bounds :
    ((default_store false).maxTraces = 1000 ∧ (default_store false).maxErrors = 100 ∧
      (∀ b : Bool, StoreBounded (default_store b))) ∧
    (∀ (maxHops : Nat) (st : RouterState), StoreBounded st.store →
      (∀ st1, router_step maxHops st = .done st1 → StoreBounded st1.store) ∧
      (∀ st1, router_step maxHops st = .next st1 → StoreBounded st1.store) ∧
      (∀ msg st1, router_step maxHops st = .fatal msg st1 → StoreBounded st1.store)) ∧
    (∀ (s : MetricsStore) (tag msg : String) (lc : Option String),
      s.errors.length = s.maxErrors → 0 < s.maxErrors →
      (s.record_error tag msg lc).errors =
        s.errors.tail ++ [{ processor := tag, message := msg, lineContent := lc }]) ∧
    (∀ (s : MetricsStore) (lineId fc : String) (ti : ActiveTrace),
      s.traceEnabled = true → lineId ≠ "" →
      lookupA s.activeTraces lineId = some ti →
      s.traces.length = s.maxTraces → 0 < s.maxTraces →
      (s.complete_trace lineId fc).traces =
        s.traces.tail ++
          [{ lineId := lineId, originalContent := ti.originalContent, finalContent := fc,
             steps := ti.steps, path := ti.path, allTags := ti.allTags.eraseDups }]) := by
  refine ⟨⟨rfl, rfl, ?_⟩, router_step_bounded, ?_, ?_⟩
  · intro b
    constructor
    · show (0 : Nat) ≤ 1000
      decide
    · show (0 : Nat) ≤ 100
      decide
  · intro s tag msg lc hfull hpos
    unfold MetricsStore.record_error
    exact dequeAppend_evict _ _ _ hfull hpos
  · intro s lineId fc ti hen hid hlook hfull hpos
    unfold MetricsStore.complete_trace
    rw [if_neg (by simp [hen, hid]), hlook]
    exact dequeAppend_evict _ _ _ hfull hpos

theorem C9_ring_bounds_witness :
    StoreBounded (default_store false) ∧
    (({ maxTraces := 1, maxErrors := 1, metrics := [], traces := []
        errors := [{ processor := "a", message := "b", lineContent := none }]
        traceEnabled := false, activeTraces := [], lineCounter := 0 } :
          MetricsStore).record_error "t" "m" none).errors =
      [{ processor := "t", message := "m", lineContent := none }] := by
  constructor
  · exact (C9_ring_bounds.2.1 0
      { nodes := [], pending := [], output := [], store := default_store false }
      ⟨by decide, by decide⟩).1
      { nodes := [], pending := [], output := [], store := default_store false } rfl
  · exact C9_ring_bounds.2.2.1
      { maxTraces := 1, maxErrors := 1, metrics := [], traces := []
        errors := [{ processor := "a", message := "b", lineContent := none }]
        traceEnabled := false, activeTraces := [], lineCounter := 0 }
      "t" "m" none rfl (by decide)

/-- C10: frame property of the trace interface — `add_trace_step` and
`complete_trace` with an empty id or an id absent from the in-flight map (for
instance an already-completed id) return the store unchanged, and
`start_trace` with tracing disabled returns the empty id and the unchanged
store. -/
theorem C10_trace_frame (s : MetricsStore) (lineId procTag ic oc fc line : String)
    (tags : List String) (pt : Nat) :
    (s.traceEnabled = false → s.start_trace line = ("", s)) ∧
    (lineId = "" ∨ lookupA s.activeTraces lineId = none →
      s.add_trace_step lineId procTag ic oc tags pt = s) ∧
    (lineId = "" ∨ lookupA s.activeTraces lineId = none →
      s.complete_trace lineId fc = s) := by
  refine ⟨?_, ?_, ?_⟩
  · intro hdis
    unfold MetricsStore.start_trace
    rw [if_pos hdis]
  · intro h
    unfold MetricsStore.add_trace_step
    by_cases hc : s.traceEnabled = false ∨ lineId = ""
    · rw [if_pos hc]
    · rw [if_neg hc]
      rcases h with hid | hlook
      · exact absurd (Or.inr hid) hc
      · rw [hlook]
  · intro h
    unfold MetricsStore.complete_trace
    by_cases hc : s.traceEnabled = false ∨ lineId = ""
    · rw [if_pos hc]
    · rw [if_neg hc]
      rcases h with hid | hlook
      · exact absurd (Or.inr hid) hc
      · rw [hlook]

theorem C10_trace_frame_witness :
    (default_store false).start_trace "l" = ("", default_store false) ∧
    (default_store true).add_trace_step "zzz" "p" "i" "o" [] 0 = default_store true ∧
    (default_store true).complete_trace "zzz" "f" = default_store true := by
  refine ⟨?_, ?_, ?_⟩
  · exact (C10_trace_frame (default_store false) "zzz" "p" "i" "o" "f" "l" [] 0).1 rfl
  · exact (C10_trace_frame (default_store true) "zzz" "p" "i" "o" "f" "l" [] 0).2.1
      (Or.inr rfl)
  · exact (C10_trace_frame (default_store true) "zzz" "p" "i" "o" "f" "l" [] 0).2.2
      (Or.inr rfl)
